import Mathlib

/-!
Shallow embedding of the backtest subsystem of `intraq-signals`
(`src/backtest.ts`, `src/services/dhanApi.ts`, `src/mockCandleData.ts`),
together with theorems settling the frozen claims about it.

JS numbers that carry prices are embedded as `ℚ`; tick clock times, which the
source carries as `"HH:MM"` strings produced from hour/minute counters, are
embedded as hour/minute pairs, and the 12-hour display strings the scanner
stores are produced by a faithful `to12Hour`.  Wall-clock state (`new Date()`)
is abstracted as an `Ordering` of the signal date against today plus the
minutes-of-day now.  `Math.sin`, which has no exact rational meaning, is
abstracted as a function parameter wherever it feeds a definition.
-/

namespace IntraQ

/-- Trading side of a signal (`"LONG" | "SHORT"` in `db.ts`). -/
inductive Side where
  | LONG
  | SHORT
deriving DecidableEq, Repr

/-- Data source tag of a fetch response (`'dhan' | 'yfinance'`). -/
inductive DataSource where
  | dhan
  | yfinance
deriving DecidableEq, Repr

/-- A session-clock time of day: the hour/minute pair behind an `"HH:MM"`
tick time string. -/
structure HM where
  hour : Nat
  minute : Nat
deriving DecidableEq, Repr

/-- One intraday OHLC point as consumed by the scanner
(`{ time; price; high; low }` in `backtest.ts`). -/
structure Tick where
  time : HM
  price : ℚ
  high : ℚ
  low : ℚ
deriving DecidableEq, Repr

/-- `n.toString().padStart(2, '0')` for a minute count. -/
def pad2 (n : Nat) : String :=
  if n < 10 then "0" ++ toString n else toString n

/-- `to12Hour` from `backtest.ts`: convert a 24-hour clock time to the
`"h:mm AM"`-style display string stored in the hit-time fields. -/
def to12Hour (t : HM) : String :=
  let period := if 12 ≤ t.hour then "PM" else "AM"
  let hours12 := if t.hour % 12 = 0 then 12 else t.hour % 12
  toString hours12 ++ ":" ++ pad2 t.minute ++ " " ++ period

/-- Outcome values of a finished scan (`"target" | "sl" | "no_trigger"`). -/
inductive Outcome where
  | target
  | sl
  | no_trigger
deriving DecidableEq, Repr

/-- The `backtest` record attached to a signal.  Fields the source leaves
`undefined` are `none` / `false` here (`?.noData` is falsy when absent). -/
structure BacktestInfo where
  entryHit : Bool
  entryHitTime : Option String := none
  targetHit : Bool
  targetHitTime : Option String := none
  slHit : Bool
  slHitTime : Option String := none
  outcome : Option Outcome := none
  timeToTarget : Option Int := none
  timeToSL : Option Int := none
  usedRealData : Bool := false
  dataSource : Option DataSource := none
  noData : Bool := false
deriving DecidableEq, Repr

/-- `TSignal` from `db.ts`.  `details : Record<string, any>` is embedded as an
opaque optional payload string; no claim touches its structure. -/
structure TSignal where
  id : Option String := none
  date : String
  symbol : String
  strategy : String := ""
  side : Side
  score : ℚ := 0
  entry : ℚ
  target : ℚ
  stopLoss : ℚ
  riskReward : Option String := none
  sector : Option String := none
  details : Option String := none
  backtest : Option BacktestInfo := none
deriving DecidableEq, Repr

/-- The mutable hit flags and times of the scan loop in `backtestSignal`. -/
structure HitState where
  entryHit : Bool := false
  entryHitTime : Option String := none
  targetHit : Bool := false
  targetHitTime : Option String := none
  slHit : Bool := false
  slHitTime : Option String := none
deriving DecidableEq, Repr

/-- One iteration body of the scan loop of `backtestSignal`: the three
sequential flag updates for the current tick, on the current side. -/
def scanStep (sig : TSignal) (st : HitState) (t : Tick) : HitState :=
  match sig.side with
  | .LONG =>
    let st1 := if !st.entryHit && decide (t.low ≤ sig.entry) then
      { st with entryHit := true, entryHitTime := some (to12Hour t.time) } else st
    let st2 := if st1.entryHit && !st1.targetHit && decide (sig.target ≤ t.high) then
      { st1 with targetHit := true, targetHitTime := some (to12Hour t.time) } else st1
    if st2.entryHit && !st2.slHit && decide (t.low ≤ sig.stopLoss) then
      { st2 with slHit := true, slHitTime := some (to12Hour t.time) } else st2
  | .SHORT =>
    let st1 := if !st.entryHit && decide (sig.entry ≤ t.high) then
      { st with entryHit := true, entryHitTime := some (to12Hour t.time) } else st
    let st2 := if st1.entryHit && !st1.targetHit && decide (t.low ≤ sig.target) then
      { st1 with targetHit := true, targetHitTime := some (to12Hour t.time) } else st1
    if st2.entryHit && !st2.slHit && decide (sig.stopLoss ≤ t.high) then
      { st2 with slHit := true, slHitTime := some (to12Hour t.time) } else st2

/-- The scan loop of `backtestSignal`, including its early `break` once
entry and one of target/stop are decided. -/
def scanTicks (sig : TSignal) (st : HitState) : List Tick → HitState
  | [] => st
  | t :: rest =>
    let st1 := scanStep sig st t
    if (st1.targetHit || st1.slHit) && st1.entryHit then st1
    else scanTicks sig st1 rest

/-- Clock time of day in whole minutes (`h * 60 + m` in the source). -/
def minutesOf (t : HM) : Int :=
  (t.hour : Int) * 60 + t.minute

/-- `intradayData.find(t => to12Hour(t.time) === key)?.time || dflt`:
look up the 24-hour time of the first tick whose 12-hour display equals the
recorded hit time, with the source's fallback time. -/
def findTimeOr (data : List Tick) (key : Option String) (dflt : HM) : HM :=
  match data.find? (fun t => some (to12Hour t.time) == key) with
  | some t => t.time
  | none => dflt

/-- Outcome resolution of `backtestSignal` after the scan: outcome plus
`timeToTarget` / `timeToSL`. -/
def resolveOutcome (data : List Tick) (st : HitState) : Outcome × Option Int × Option Int :=
  if st.entryHit then
    if st.targetHit && st.slHit then
      let entryTime := findTimeOr data st.entryHitTime ⟨9, 15⟩
      let targetTime := findTimeOr data st.targetHitTime ⟨15, 30⟩
      let slTime := findTimeOr data st.slHitTime ⟨15, 30⟩
      if minutesOf targetTime < minutesOf slTime then
        (.target, some (minutesOf targetTime - minutesOf entryTime), none)
      else
        (.sl, none, some (minutesOf slTime - minutesOf entryTime))
    else if st.targetHit then
      let entryTime := findTimeOr data st.entryHitTime ⟨9, 15⟩
      let targetTime := findTimeOr data st.targetHitTime ⟨15, 30⟩
      (.target, some (minutesOf targetTime - minutesOf entryTime), none)
    else if st.slHit then
      let entryTime := findTimeOr data st.entryHitTime ⟨9, 15⟩
      let slTime := findTimeOr data st.slHitTime ⟨15, 30⟩
      (.sl, none, some (minutesOf slTime - minutesOf entryTime))
    else (.no_trigger, none, none)
  else (.no_trigger, none, none)

/-- The `backtest` record `backtestSignal` returns when data was obtained. -/
def noDataBacktest : BacktestInfo :=
  { entryHit := false, targetHit := false, slHit := false,
    outcome := none, usedRealData := false, noData := true }

/-- The with-data tail of `backtestSignal`: scan the ticks, resolve the
outcome, and attach the fresh `backtest` record to the input signal. -/
def backtestCore (sig : TSignal) (data : List Tick) (src : Option DataSource) : TSignal :=
  let st := scanTicks sig {} data
  let r := resolveOutcome data st
  let b : BacktestInfo :=
    { entryHit := st.entryHit, entryHitTime := st.entryHitTime,
      targetHit := st.targetHit, targetHitTime := st.targetHitTime,
      slHit := st.slHit, slHitTime := st.slHitTime,
      outcome := some r.1, timeToTarget := r.2.1, timeToSL := r.2.2,
      usedRealData := true, dataSource := src, noData := false }
  { sig with backtest := some b }

/-- The payload `backtestSignal` expects from `dhanApi.fetchIntradayData`. -/
structure FetchResponse where
  data : List Tick
  dataSource : Option DataSource
deriving DecidableEq, Repr

/-- The ambient world of a run: whether Dhan credentials are configured, the
(deterministic) result of a fetch per (symbol, date), how a signal date
compares with today at midnight, the wall clock in minutes of day, whether an
`onProgress` callback was supplied, and the sector map. -/
structure Env where
  configured : Bool
  fetch : String → String → Except String FetchResponse
  dateVsToday : String → Ordering
  nowMinutes : Nat
  hasProgress : Bool
  sectorMap : String → Option String

/-- `backtestSignal` from `backtest.ts`.  The unconfigured, thrown-error and
empty-payload paths all return the input signal with a fresh no-data
`backtest` record; a non-empty payload is scanned by `backtestCore`. -/
def backtestSignal (env : Env) (sig : TSignal) : TSignal :=
  if !env.configured then { sig with backtest := some noDataBacktest }
  else
    match env.fetch sig.symbol sig.date with
    | .error _ => { sig with backtest := some noDataBacktest }
    | .ok resp =>
      if 0 < resp.data.length then backtestCore sig resp.data resp.dataSource
      else { sig with backtest := some noDataBacktest }

/-- Result of `checkBacktestTiming`: a go/no-go flag plus a reason. -/
structure TimingCheck where
  canBacktest : Bool
  message : String
deriving DecidableEq, Repr

/-- `15 * 60 + 30`: market close, 15:30, in minutes of day. -/
def marketCloseTime : Nat := 15 * 60 + 30

/-- `16 * 60`: 16:00, when complete data is expected (30 min after close). -/
def dataAvailableTime : Nat := 16 * 60

/-- `checkBacktestTiming` from `backtest.ts`.  The midnight comparison of the
signal date against today is `dateVsToday`; `nowMinutes` is the wall clock in
minutes of day.  Messages are the source texts with their interpolated
current-time/date suffixes elided. -/
def checkBacktestTiming (dateVsToday : Ordering) (nowMinutes : Nat) : TimingCheck :=
  match dateVsToday with
  | .lt => { canBacktest := true, message := "Historical data available" }
  | .eq =>
    if nowMinutes < marketCloseTime then
      { canBacktest := false,
        message := "Market is still open! Backtest after 4:00 PM IST for complete data." }
    else if nowMinutes < dataAvailableTime then
      { canBacktest := true,
        message := "Market just closed. Data might still be processing. If backtest fails, wait until 4:00 PM IST." }
    else
      { canBacktest := true, message := "Today's complete data should be available" }
  | .gt =>
    { canBacktest := false,
      message := "Cannot backtest future date. Signals must be from today or earlier." }

/-- `calculateDhanDelay`: the fixed 1000 ms inter-request delay (the signal
count only feeds log output). -/
def calculateDhanDelay (signalCount : Nat) : Nat :=
  let DHAN_RATE_LIMIT_DELAY := 1000
  let _ := signalCount
  DHAN_RATE_LIMIT_DELAY

/-- Observable side effects of a `backtestBatch` run, in program order:
the timing-guard consultation, an `onProgress` call, a remote fetch attempt,
a Dexie `db.signals.update`, and an awaited inter-request delay. -/
inductive Event where
  | timingCheck (date : String)
  | progress (current total : Nat)
  | fetchCall (symbol : String)
  | persist (id : String)
  | delayEv (ms : Nat)
deriving DecidableEq, Repr

/-- `backtested.backtest?.noData` (falsy when the record or flag is absent). -/
def noDataOf (sig : TSignal) : Bool :=
  match sig.backtest with
  | some b => b.noData
  | none => false

/-- The sector patch applied to each signal before scanning:
`sector: signal.sector ?? sectorMap[signal.symbol] ?? "UNKNOWN"`. -/
def withSector (env : Env) (sig : TSignal) : TSignal :=
  { sig with sector := some (sig.sector.getD ((env.sectorMap sig.symbol).getD "UNKNOWN")) }

/-- The fetch attempts `backtestSignal` makes: exactly one remote call when
credentials are configured, none otherwise. -/
def signalEvents (env : Env) (sig : TSignal) : List Event :=
  if env.configured then [.fetchCall sig.symbol] else []

/-- The `onProgress(i + 1, signals.length)` call at the top of the loop body,
emitted only when a callback was supplied. -/
def progressEvents (env : Env) (i n : Nat) : List Event :=
  if env.hasProgress then [.progress (i + 1) n] else []

/-- The `db.signals.update` call, guarded by `if (signal.id)`. -/
def persistEvents (sig : TSignal) : List Event :=
  match sig.id with
  | some anId => [.persist anId]
  | none => []

/-- The awaited inter-request delay, guarded by
`i < signals.length - 1 && !backtested.backtest?.noData`. -/
def delayEvents (i n : Nat) (backtested : TSignal) (delayMs : Nat) : List Event :=
  if decide (i < n - 1) && !(noDataOf backtested) then [.delayEv delayMs] else []

/-- Everything one iteration of the `backtestBatch` loop does after the
`onProgress` call: the fetch, the persistence, and the conditional delay. -/
def itemWork (env : Env) (n i : Nat) (sig : TSignal) (delayMs : Nat) : List Event :=
  let s := withSector env sig
  let backtested := backtestSignal env s
  signalEvents env s ++ persistEvents sig ++ delayEvents i n backtested delayMs

/-- One iteration of the `backtestBatch` loop: the backtested signal pushed
onto `results` and the events of the iteration, in program order. -/
def itemRun (env : Env) (n i : Nat) (sig : TSignal) (delayMs : Nat) : TSignal × List Event :=
  (backtestSignal env (withSector env sig),
   progressEvents env i n ++ itemWork env n i sig delayMs)

/-- The `for` loop of `backtestBatch` from index `i` on: the `results` list,
the `noDataCount` tally, and the emitted events. -/
def runItems (env : Env) (n delayMs : Nat) : Nat → List TSignal → List TSignal × Nat × List Event
  | _, [] => ([], 0, [])
  | i, sig :: rest =>
    let (backtested, evts) := itemRun env n i sig delayMs
    let (results, cnt, tr) := runItems env n delayMs (i + 1) rest
    (backtested :: results, (if noDataOf backtested then 1 else 0) + cnt, evts ++ tr)

/-- `backtestBatch` from `backtest.ts`.  A thrown timing rejection is an
`error` carrying the message and the events emitted before the throw; a
completed run is the results, the `noDataCount`, and the full event trace. -/
def backtestBatch (env : Env) (signals : List TSignal) :
    Except (String × List Event) (List TSignal × Nat × List Event) :=
  match signals with
  | [] =>
    -- `signals.length > 0` fails, so the guard is never consulted and the
    -- loop body never runs.
    .ok ([], 0, [])
  | s0 :: _ =>
    let tc := checkBacktestTiming (env.dateVsToday s0.date) env.nowMinutes
    if tc.canBacktest then
      let r := runItems env signals.length (calculateDhanDelay signals.length) 0 signals
      .ok (r.1, r.2.1, .timingCheck s0.date :: r.2.2)
    else
      .error (tc.message, [.timingCheck s0.date])

/-!  The deterministic mock session generator (`generateMockIntradayData`).
Its price arithmetic draws from `seededRandom(seedBase + seedCounter++)`,
a `Math.sin`-based stream; the stream is abstracted as `rnd : Nat → ℚ`
indexed by the counter, so every theorem below holds for every seed. -/

/-- The `while` loop of `generateMockIntradayData`: one tick per iteration
from the current `(hour, minute)` until past 15:30, advancing by 5 minutes
with minute wrap-around.  `ctr` is `seedCounter`. -/
def mockLoop (rnd : Nat → ℚ) (ctr : Nat) (price : ℚ) (h m : Nat) : List Tick :=
  if hg : h < 15 ∨ (h = 15 ∧ m ≤ 30) then
    let random1 := rnd ctr
    let change := (random1 - 48 / 100) * price * (2 / 100)
    let p := price + change
    let random2 := rnd (ctr + 1)
    let random3 := rnd (ctr + 2)
    let hi := p * (1 + random2 * (1 / 100))
    let lo := p * (1 - random3 * (1 / 100))
    let tick : Tick := ⟨⟨h, m⟩, p, hi, lo⟩
    if hw : 60 ≤ m + 5 then tick :: mockLoop rnd (ctr + 3) p (h + 1) 0
    else tick :: mockLoop rnd (ctr + 3) p h (m + 5)
  else []
termination_by (16 - h) * 100 + (60 - m)
decreasing_by
  · omega
  · omega

/-- `generateMockIntradayData date symbol openPrice` for the seed stream
`rnd` determined by `hashString(date + "-" + symbol)`. -/
def generateMockIntradayData (rnd : Nat → ℚ) (openPrice : ℚ) : List Tick :=
  mockLoop rnd 0 openPrice 9 15

/-- The clock times the mock loop walks through, on their own. -/
def timesFrom (h m : Nat) : List HM :=
  if hg : h < 15 ∨ (h = 15 ∧ m ≤ 30) then
    if hw : 60 ≤ m + 5 then (⟨h, m⟩ : HM) :: timesFrom (h + 1) 0
    else (⟨h, m⟩ : HM) :: timesFrom h (m + 5)
  else []
termination_by (16 - h) * 100 + (60 - m)
decreasing_by
  · omega
  · omega

/-!  The remote-payload parser (`parseOHLCData` in `services/dhanApi.ts`).
JS `||` fallback chains treat `undefined`, `0` and `""` as falsy; raw fields
are `Option`s and the chains are spelled out.  Epoch timestamps go through
`Date(ts * 1000).toTimeString()`, which depends on the host timezone, so it
is abstracted as `epochToTimeStr`. -/

/-- A raw timestamp value: an epoch number or a `"YYYY-MM-DD HH:MM:SS"`-style
string. -/
inductive TSVal where
  | epoch (n : Int)
  | str (s : String)
deriving DecidableEq, Repr

/-- JS truthiness test for a timestamp value (`0` and `""` are falsy). -/
def tsFalsy : TSVal → Bool
  | .epoch n => n == 0
  | .str s => s == ""

/-- `a || b` on optional timestamp values. -/
def jsOrTS (a b : Option TSVal) : Option TSVal :=
  match a with
  | some v => if tsFalsy v then b else some v
  | none => b

/-- `a || b` on an optional number against the next fallback (`0` is falsy). -/
def qOr (a : Option ℚ) (b : ℚ) : ℚ :=
  match a with
  | some x => if x = 0 then b else x
  | none => b

/-- A raw tick of the provider payload, with every field the parser reads. -/
structure RawTick where
  timestamp : Option TSVal := none
  start_Time : Option TSVal := none
  time : Option TSVal := none
  high : Option ℚ := none
  low : Option ℚ := none
  close : Option ℚ := none
  ltp : Option ℚ := none
  last_price : Option ℚ := none
deriving DecidableEq, Repr

/-- A parsed intraday point (`{ time; price; high; low }` with the `"HH:MM"`
slice of the raw timestamp). -/
structure IntradayPoint where
  time : String
  price : ℚ
  high : ℚ
  low : ℚ
deriving DecidableEq, Repr

/-- `str.split(' ')` with the single-space separator, as the JS call: every
space ends a field, and empty fields are kept. -/
def jsSplitSpaceAux (acc : List Char) : List Char → List String
  | [] => [String.mk acc.reverse]
  | c :: cs =>
    if c = ' ' then String.mk acc.reverse :: jsSplitSpaceAux [] cs
    else jsSplitSpaceAux (c :: acc) cs

/-- `str.slice(0, 5)`. -/
def jsSlice5 (s : String) : String :=
  String.mk (s.data.take 5)

/-- The body of the `rawData.map` in `parseOHLCData`; reading a timestamp off
a tick that has none is the JS `TypeError` the map would throw. -/
def parseRawTick (epochToTimeStr : Int → String) (t : RawTick) : Except String IntradayPoint :=
  let price := qOr t.close (qOr t.ltp (qOr t.last_price 0))
  let hi := qOr t.high (qOr t.close 0)
  let lo := qOr t.low (qOr t.close 0)
  match jsOrTS t.timestamp (jsOrTS t.start_Time t.time) with
  | none => .error "TypeError: timestamp is undefined"
  | some (.epoch n) => .ok ⟨jsSlice5 (epochToTimeStr n), price, hi, lo⟩
  | some (.str s) =>
    let timeStr :=
      match (jsSplitSpaceAux [] s.data).get? 1 with
      | some u => if jsSlice5 u = "" then "00:00" else jsSlice5 u
      | none => "00:00"
    .ok ⟨timeStr, price, hi, lo⟩

/-- `rawData.map(...)` when the body may throw: stop at the first error,
as the JS exception would. -/
def mapOrThrow (f : α → Except ε β) : List α → Except ε (List β)
  | [] => .ok []
  | a :: as =>
    match f a with
    | .error e => .error e
    | .ok b =>
      match mapOrThrow f as with
      | .error e => .error e
      | .ok bs => .ok (b :: bs)

/-- `parseOHLCData` from `services/dhanApi.ts`: reject an empty payload, map
every raw tick, and keep only points with positive price. -/
def parseOHLCData (epochToTimeStr : Int → String) (rawData : List RawTick) :
    Except String (List IntradayPoint) :=
  if rawData.length = 0 then .error "No data received from Dhan API"
  else
    match mapOrThrow (parseRawTick epochToTimeStr) rawData with
    | .error e => .error e
    | .ok pts => .ok (pts.filter fun p => decide (0 < p.price))

/-!  The two copies of the seeded-PRNG utilities: `seededRandom`/`hashString`
in `backtest.ts` and in `mockCandleData.ts`.  `Math.sin` is abstracted as
`jsSin`; strings are their UTF-16 code-unit sequences. -/

/-- Wrap an integer to JS 32-bit two's-complement range (the effect of
`x & x` and of `<<` on out-of-range doubles). -/
def toInt32 (n : Int) : Int :=
  (n + 2 ^ 31) % 2 ^ 32 - 2 ^ 31

/-- `seededRandom` from `backtest.ts`.  `Math.sin(seed++)` reads the original
`seed`; the incremented local copy is never read again. -/
def seededRandom_backtest (jsSin : ℚ → ℚ) (seed : ℚ) : ℚ :=
  let s0 := seed
  let _seedIncremented := s0 + 1
  let x := jsSin s0 * 10000
  x - (⌊x⌋ : ℚ)

/-- `seededRandom` from `mockCandleData.ts`. -/
def seededRandom_mock (jsSin : ℚ → ℚ) (seed : ℚ) : ℚ :=
  let x := jsSin seed * 10000
  x - (⌊x⌋ : ℚ)

/-- `hashString` from `backtest.ts`:
`hash = ((hash << 5) - hash) + char; hash = hash & hash` over the code units,
then `Math.abs`. -/
def hashString_backtest (codeUnits : List Nat) : Nat :=
  (codeUnits.foldl
    (fun hash c => toInt32 (toInt32 (hash * 2 ^ 5) - hash + (c : Int))) 0).natAbs

/-- `hashString` from `mockCandleData.ts`:
`hash = (hash << 5) - hash + char; hash = hash & hash` over the code units,
then `Math.abs`. -/
def hashString_mock (codeUnits : List Nat) : Nat :=
  (codeUnits.foldl
    (fun hash c => toInt32 (toInt32 (hash * 2 ^ 5) - hash + (c : Int))) 0).natAbs

/-!  Concrete inputs used to exercise the model. -/

/-- The LONG WIPRO signal of the specification's worked scenario. -/
def wiproSignal : TSignal :=
  { id := some "sig-wipro", date := "2025-11-12", symbol := "WIPRO", side := .LONG,
    entry := 241, target := 247, stopLoss := mkRat 2381 10 }

/-- A session for the worked scenario: the 09:15 bar's low is 240.50 (entry
fires), the 10:45 bar's high is 247.20 (target fires), and no bar's low
reaches the 238.10 stop. -/
def wiproSession : List Tick :=
  [⟨⟨9, 15⟩, 241, 242, mkRat 2405 10⟩,
   ⟨⟨10, 0⟩, 243, 244, 242⟩,
   ⟨⟨10, 45⟩, 246, mkRat 2472 10, 245⟩]

/-- An environment whose single provider always serves `wiproSession`. -/
def envWipro : Env :=
  { configured := true,
    fetch := fun _ _ => .ok ⟨wiproSession, some .dhan⟩,
    dateVsToday := fun _ => .lt,
    nowMinutes := 17 * 60,
    hasProgress := true,
    sectorMap := fun _ => none }

/-- A one-bar session whose range covers both the target and the stop of
`tieSignal` at once. -/
def tieSession : List Tick :=
  [⟨⟨9, 15⟩, 100, 106, 97⟩]

/-- A LONG signal entered, targeted and stopped by the single `tieSession`
bar. -/
def tieSignal : TSignal :=
  { id := none, date := "2025-11-12", symbol := "TIE", side := .LONG,
    entry := 100, target := 105, stopLoss := 98 }

/-- An environment serving `tieSession`. -/
def envTie : Env :=
  { envWipro with fetch := fun _ _ => .ok ⟨tieSession, some .dhan⟩ }

/-- A signal with a persisted id, for observing the per-item event order. -/
def demoSignal : TSignal :=
  { id := some "s1", date := "2025-11-11", symbol := "WIPRO", side := .LONG,
    entry := 241, target := 247, stopLoss := mkRat 2381 10 }

/-- Two id-less signals; the provider fails for `"AAA"` only. -/
def sigA : TSignal :=
  { id := none, date := "2025-11-11", symbol := "AAA", side := .LONG,
    entry := 100, target := 105, stopLoss := 98 }

/-- Companion of `sigA` with working data. -/
def sigB : TSignal :=
  { id := none, date := "2025-11-11", symbol := "BBB", side := .LONG,
    entry := 100, target := 105, stopLoss := 98 }

/-- An environment whose provider errors for `"AAA"` and serves `tieSession`
otherwise. -/
def envPartial : Env :=
  { envWipro with
    fetch := fun sym _ => if sym == "AAA" then .error "no data" else .ok ⟨tieSession, some .dhan⟩ }

/-- An environment with no configured credentials. -/
def envUnconfigured : Env :=
  { envWipro with configured := false }

/-- An environment whose wall clock is today 10:00, before market close. -/
def envToday10 : Env :=
  { envWipro with dateVsToday := fun _ => .eq, nowMinutes := 10 * 60 }

/-- The `backtest` record the scenario run of `wiproSignal` produces. -/
def wiproBacktest : BacktestInfo :=
  { entryHit := true, entryHitTime := some "9:15 AM",
    targetHit := true, targetHitTime := some "10:45 AM",
    slHit := false, slHitTime := none,
    outcome := some .target, timeToTarget := some 90, timeToSL := none,
    usedRealData := true, dataSource := some .dhan, noData := false }

/-- The `backtest` record the one-bar run of `tieSignal` produces: all three
conditions hit at 09:15, resolved to stop. -/
def tieBacktest : BacktestInfo :=
  { entryHit := true, entryHitTime := some "9:15 AM",
    targetHit := true, targetHitTime := some "9:15 AM",
    slHit := true, slHitTime := some "9:15 AM",
    outcome := some .sl, timeToTarget := none, timeToSL := some 0,
    usedRealData := true, dataSource := some .dhan, noData := false }

/-- A well-formed single raw provider tick for exercising the parser. -/
def rawDemoTick : RawTick :=
  { timestamp := some (.str "2025-11-12 09:15:00"),
    close := some 100, high := some 101, low := some 99 }

set_option maxHeartbeats 1000000 in
/-- The 76 five-minute session boundaries, 09:15 through 15:30. -/
def standardSessionTimes : List HM :=
  [HM.mk 9 15, HM.mk 9 20, HM.mk 9 25, HM.mk 9 30, HM.mk 9 35, HM.mk 9 40, HM.mk 9 45,
   HM.mk 9 50, HM.mk 9 55, HM.mk 10 0, HM.mk 10 5, HM.mk 10 10, HM.mk 10 15, HM.mk 10 20,
   HM.mk 10 25, HM.mk 10 30, HM.mk 10 35, HM.mk 10 40, HM.mk 10 45, HM.mk 10 50,
   HM.mk 10 55, HM.mk 11 0, HM.mk 11 5, HM.mk 11 10, HM.mk 11 15, HM.mk 11 20,
   HM.mk 11 25, HM.mk 11 30, HM.mk 11 35, HM.mk 11 40, HM.mk 11 45, HM.mk 11 50,
   HM.mk 11 55, HM.mk 12 0, HM.mk 12 5, HM.mk 12 10, HM.mk 12 15, HM.mk 12 20,
   HM.mk 12 25, HM.mk 12 30, HM.mk 12 35, HM.mk 12 40, HM.mk 12 45, HM.mk 12 50,
   HM.mk 12 55, HM.mk 13 0, HM.mk 13 5, HM.mk 13 10, HM.mk 13 15, HM.mk 13 20,
   HM.mk 13 25, HM.mk 13 30, HM.mk 13 35, HM.mk 13 40, HM.mk 13 45, HM.mk 13 50,
   HM.mk 13 55, HM.mk 14 0, HM.mk 14 5, HM.mk 14 10, HM.mk 14 15, HM.mk 14 20,
   HM.mk 14 25, HM.mk 14 30, HM.mk 14 35, HM.mk 14 40, HM.mk 14 45, HM.mk 14 50,
   HM.mk 14 55, HM.mk 15 0, HM.mk 15 5, HM.mk 15 10, HM.mk 15 15, HM.mk 15 20,
   HM.mk 15 25, HM.mk 15 30]

/-- Scan invariant: every recorded hit time is the 12-hour display of the
time of some tick of the session. -/
def hitTimesFrom (data : List Tick) (st : HitState) : Prop :=
  (st.entryHit = true → ∃ t ∈ data, st.entryHitTime = some (to12Hour t.time)) ∧
  (st.targetHit = true → ∃ t ∈ data, st.targetHitTime = some (to12Hour t.time)) ∧
  (st.slHit = true → ∃ t ∈ data, st.slHitTime = some (to12Hour t.time))

/-!  Helper lemmas. -/

theorem find?_eq_of_nodup_keys (data : List Tick) (t : Tick) (ht : t ∈ data)
    (hnd : (data.map fun u => to12Hour u.time).Nodup) :
    data.find? (fun u => some (to12Hour u.time) == some (to12Hour t.time)) = some t := by
  induction data with
  | nil => cases ht
  | cons u rest ih =>
    rw [List.find?_cons]
    by_cases hpu : to12Hour u.time = to12Hour t.time
    · simp only [hpu, beq_self_eq_true]
      rcases List.mem_cons.mp ht with rfl | htr
      · rfl
      · exfalso
        have hmem : to12Hour u.time ∈ rest.map (fun u => to12Hour u.time) := by
          rw [hpu]
          exact List.mem_map_of_mem _ htr
        exact (List.nodup_cons.mp hnd).1 hmem
    · have hb : (some (to12Hour u.time) == some (to12Hour t.time)) = false := by
        simpa using hpu
      simp only [hb]
      rcases List.mem_cons.mp ht with rfl | htr
      · exact absurd rfl hpu
      · exact ih htr (List.nodup_cons.mp hnd).2

theorem findTimeOr_eq (data : List Tick) (t : Tick) (ht : t ∈ data)
    (hnd : (data.map fun u => to12Hour u.time).Nodup) (dflt : HM) :
    findTimeOr data (some (to12Hour t.time)) dflt = t.time := by
  unfold findTimeOr
  rw [find?_eq_of_nodup_keys data t ht hnd]

theorem scanStep_hitTimesFrom (sig : TSignal) (data : List Tick) (st : HitState) (t : Tick)
    (hmem : t ∈ data) (hst : hitTimesFrom data st) :
    hitTimesFrom data (scanStep sig st t) := by
  obtain ⟨h1, h2, h3⟩ := hst
  unfold scanStep
  cases sig.side <;>
    simp only [] <;>
    split_ifs <;>
    refine ⟨?_, ?_, ?_⟩ <;>
    intro hh <;>
    first
      | exact ⟨t, hmem, rfl⟩
      | exact h1 hh
      | exact h2 hh
      | exact h3 hh

theorem scanTicks_hitTimesFrom (sig : TSignal) (data : List Tick) :
    ∀ (sub : List Tick) (st : HitState), (∀ u ∈ sub, u ∈ data) → hitTimesFrom data st →
      hitTimesFrom data (scanTicks sig st sub) := by
  intro sub
  induction sub with
  | nil => intro st _ h; exact h
  | cons t rest ih =>
    intro st hsub h
    have h1 := scanStep_hitTimesFrom sig data st t (hsub t (List.mem_cons_self t rest)) h
    simp only [scanTicks]
    split
    · exact h1
    · exact ih _ (fun u hu => hsub u (List.mem_cons_of_mem _ hu)) h1

/-- The hit state of the whole scan records only times of session ticks. -/
theorem scan_hitTimesFrom (sig : TSignal) (data : List Tick) :
    hitTimesFrom data (scanTicks sig {} data) := by
  refine scanTicks_hitTimesFrom sig data data {} (fun _ h => h) ⟨?_, ?_, ?_⟩ <;>
    intro hh <;> simp at hh

/-- With data in hand, `backtestSignal` is the scan core. -/
theorem backtestSignal_eq_core (env : Env) (sig : TSignal) (data : List Tick)
    (src : Option DataSource) (hconf : env.configured = true)
    (hfetch : env.fetch sig.symbol sig.date = .ok ⟨data, src⟩) (hlen : 0 < data.length) :
    backtestSignal env sig = backtestCore sig data src := by
  unfold backtestSignal
  rw [hconf, hfetch]
  simp [hlen]

/-- The time sequence of the mock session is independent of the seed stream
and the prices: it is exactly the 5-minute walk of the loop counters. -/
theorem mockLoop_map_time (rnd : Nat → ℚ) (ctr : Nat) (price : ℚ) (h m : Nat) :
    (mockLoop rnd ctr price h m).map Tick.time = timesFrom h m := by
  induction ctr, price, h, m using mockLoop.induct rnd with
  | case1 ctr price h m hg r1 chg p hw ih =>
    rw [mockLoop.eq_def, timesFrom.eq_def]
    simp only [dif_pos hg, dif_pos hw, List.map_cons]
    exact congrArg _ ih
  | case2 ctr price h m hg r1 chg p hw ih =>
    rw [mockLoop.eq_def, timesFrom.eq_def]
    simp only [dif_pos hg, dif_neg hw, List.map_cons]
    exact congrArg _ ih
  | case3 ctr price h m hg =>
    rw [mockLoop.eq_def, timesFrom.eq_def]
    simp only [dif_neg hg, List.map_nil]

theorem mapOrThrow_length {α ε β : Type} (f : α → Except ε β) :
    ∀ (l : List α) (bs : List β), mapOrThrow f l = .ok bs → bs.length = l.length := by
  intro l
  induction l with
  | nil =>
    intro bs h
    simp only [mapOrThrow] at h
    cases h
    rfl
  | cons a as ih =>
    intro bs h
    simp only [mapOrThrow] at h
    cases hfa : f a with
    | error e => rw [hfa] at h; cases h
    | ok b =>
      rw [hfa] at h
      cases hrec : mapOrThrow f as with
      | error e => rw [hrec] at h; cases h
      | ok bs0 =>
        rw [hrec] at h
        cases h
        simp [ih bs0 hrec]

/-- `results` collects `backtestSignal` of every sector-patched signal, in
input order. -/
theorem runItems_results (env : Env) (n d : Nat) :
    ∀ (i : Nat) (sigs : List TSignal),
      (runItems env n d i sigs).1 = sigs.map fun s => backtestSignal env (withSector env s) := by
  intro i sigs
  induction sigs generalizing i with
  | nil => rfl
  | cons s rest ih =>
    simp only [runItems, itemRun, List.map_cons]
    exact congrArg _ (ih (i + 1))

/-- `noDataCount` tallies exactly the results whose `backtest` says no data. -/
theorem runItems_count (env : Env) (n d : Nat) :
    ∀ (i : Nat) (sigs : List TSignal),
      (runItems env n d i sigs).2.1 = (runItems env n d i sigs).1.countP noDataOf := by
  intro i sigs
  induction sigs generalizing i with
  | nil => rfl
  | cons s rest ih =>
    simp only [runItems, itemRun, List.countP_cons]
    rw [ih (i + 1)]
    omega

/-- The loop's event trace is the per-item traces in order: for item `i`,
first the `onProgress` call, then the item's work. -/
theorem runItems_trace (env : Env) (n d : Nat) :
    ∀ (i : Nat) (sigs : List TSignal),
      (runItems env n d i sigs).2.2 =
        ((List.enumFrom i sigs).map fun p =>
          progressEvents env p.1 n ++ itemWork env n p.1 p.2 d).flatten := by
  intro i sigs
  induction sigs generalizing i with
  | nil => rfl
  | cons s rest ih =>
    simp only [runItems, itemRun, List.enumFrom, List.map_cons, List.flatten_cons]
    rw [ih (i + 1), List.append_assoc]

set_option maxRecDepth 10000 in
/-- The mock loop's time walk from 09:15 is exactly the standard grid. -/
theorem timesFrom_eq_standard : timesFrom 9 15 = standardSessionTimes := by
  simp [timesFrom, standardSessionTimes]

/-- `parseOHLCData` only ever keeps points of the payload: at most one per
raw tick, all with positive parsed price. -/
theorem parse_keeps_payload (f : Int → String) (raw : List RawTick)
    (pts : List IntradayPoint) (hok : parseOHLCData f raw = .ok pts) :
    pts.length ≤ raw.length ∧ ∀ p ∈ pts, 0 < p.price := by
  unfold parseOHLCData at hok
  by_cases hz : raw.length = 0
  · rw [if_pos hz] at hok
    cases hok
  · rw [if_neg hz] at hok
    cases hmap : mapOrThrow (parseRawTick f) raw with
    | error e => rw [hmap] at hok; cases hok
    | ok pts0 =>
      rw [hmap] at hok
      injection hok with hok
      subst hok
      constructor
      · calc (pts0.filter fun p => decide (0 < p.price)).length
            ≤ pts0.length := List.length_filter_le _ _
          _ = raw.length := mapOrThrow_length _ raw pts0 hmap
      · intro p hp
        exact of_decide_eq_true (List.mem_filter.mp hp).2

/-!  The claims. -/

/-- C1: for an entered signal whose target and stop conditions are both
detected, if the resolved target-hit and stop-hit clock minutes are equal
(both conditions on the same tick), `backtestSignal` resolves the outcome to
stop, never to target. -/
theorem stop_precedence_on_tie (env : Env) (sig : TSignal) (data : List Tick)
    (src : Option DataSource) (b : BacktestInfo)
    (hconf : env.configured = true)
    (hfetch : env.fetch sig.symbol sig.date = .ok ⟨data, src⟩)
    (hlen : 0 < data.length)
    (hb : (backtestSignal env sig).backtest = some b)
    (hE : b.entryHit = true) (hT : b.targetHit = true) (hS : b.slHit = true)
    (htie : minutesOf (findTimeOr data b.targetHitTime ⟨15, 30⟩) =
            minutesOf (findTimeOr data b.slHitTime ⟨15, 30⟩)) :
    b.outcome = some .sl := by
  rw [backtestSignal_eq_core env sig data src hconf hfetch hlen] at hb
  unfold backtestCore at hb
  dsimp only at hb
  injection hb with hb
  subst hb
  dsimp only at hE hT hS htie ⊢
  simp only [resolveOutcome, hE, hT, hS, Bool.and_self, if_true]
  rw [htie]
  simp

/-- C1 witness: a LONG signal whose single 09:15 bar covers entry, target and
stop at once resolves to stop. -/
theorem stop_precedence_on_tie_witness :
    (backtestSignal envTie tieSignal).backtest = some tieBacktest ∧
    tieBacktest.outcome = some .sl := by
  refine ⟨by decide, ?_⟩
  exact stop_precedence_on_tie envTie tieSignal tieSession (some .dhan) tieBacktest rfl rfl
    (by decide) (by decide) (by decide) (by decide) (by decide) (by decide)

/-- C2: whenever `backtestSignal` resolves to target (resp. stop), the
recorded `timeToTarget` (resp. `timeToSL`) is the clock time of the resolving
tick minus the clock time of the entry tick, in whole minutes — stated for
sessions whose tick times have distinct 12-hour displays, which is what makes
the source's `find`-based look-up recover the recorded ticks. -/
theorem timeTo_metrics (env : Env) (sig : TSignal) (data : List Tick)
    (src : Option DataSource) (b : BacktestInfo)
    (hconf : env.configured = true)
    (hfetch : env.fetch sig.symbol sig.date = .ok ⟨data, src⟩)
    (hlen : 0 < data.length)
    (hnd : (data.map fun u => to12Hour u.time).Nodup)
    (hb : (backtestSignal env sig).backtest = some b) :
    (b.outcome = some .target →
      ∃ te ∈ data, ∃ tt ∈ data,
        b.entryHitTime = some (to12Hour te.time) ∧
        b.targetHitTime = some (to12Hour tt.time) ∧
        b.timeToTarget = some (minutesOf tt.time - minutesOf te.time)) ∧
    (b.outcome = some .sl →
      ∃ te ∈ data, ∃ ts ∈ data,
        b.entryHitTime = some (to12Hour te.time) ∧
        b.slHitTime = some (to12Hour ts.time) ∧
        b.timeToSL = some (minutesOf ts.time - minutesOf te.time)) := by
  rw [backtestSignal_eq_core env sig data src hconf hfetch hlen] at hb
  unfold backtestCore at hb
  dsimp only at hb
  injection hb with hb
  subst hb
  dsimp only
  have hinv := scan_hitTimesFrom sig data
  set st := scanTicks sig ({} : HitState) data with hstdef
  obtain ⟨hinvE, hinvT, hinvS⟩ := hinv
  simp only [resolveOutcome]
  cases hE : st.entryHit with
  | false => simp [hE]
  | true =>
    cases hT : st.targetHit with
    | true =>
      cases hS : st.slHit with
      | true =>
        simp only [hE, hT, hS, Bool.and_self, if_true, Bool.true_and]
        by_cases hlt : minutesOf (findTimeOr data st.targetHitTime ⟨15, 30⟩) <
            minutesOf (findTimeOr data st.slHitTime ⟨15, 30⟩)
        · rw [if_pos hlt]
          refine ⟨fun _ => ?_, fun hout => by simp at hout⟩
          obtain ⟨te, hte, heq⟩ := hinvE hE
          obtain ⟨tt, htt, hteq⟩ := hinvT hT
          refine ⟨te, hte, tt, htt, heq, hteq, ?_⟩
          rw [heq, hteq, findTimeOr_eq data te hte hnd, findTimeOr_eq data tt htt hnd]
        · rw [if_neg hlt]
          refine ⟨fun hout => by simp at hout, fun _ => ?_⟩
          obtain ⟨te, hte, heq⟩ := hinvE hE
          obtain ⟨ts, hts, hseq⟩ := hinvS hS
          refine ⟨te, hte, ts, hts, heq, hseq, ?_⟩
          rw [heq, hseq, findTimeOr_eq data te hte hnd, findTimeOr_eq data ts hts hnd]
      | false =>
        simp only [hE, hT, hS, Bool.and_false, Bool.false_eq_true, if_false, if_true]
        refine ⟨fun _ => ?_, fun hout => by simp at hout⟩
        obtain ⟨te, hte, heq⟩ := hinvE hE
        obtain ⟨tt, htt, hteq⟩ := hinvT hT
        refine ⟨te, hte, tt, htt, heq, hteq, ?_⟩
        rw [heq, hteq, findTimeOr_eq data te hte hnd, findTimeOr_eq data tt htt hnd]
    | false =>
      cases hS : st.slHit with
      | true =>
        simp only [hE, hT, hS, Bool.false_and, Bool.false_eq_true, if_false, if_true]
        refine ⟨fun hout => by simp at hout, fun _ => ?_⟩
        obtain ⟨te, hte, heq⟩ := hinvE hE
        obtain ⟨ts, hts, hseq⟩ := hinvS hS
        refine ⟨te, hte, ts, hts, heq, hseq, ?_⟩
        rw [heq, hseq, findTimeOr_eq data te hte hnd, findTimeOr_eq data ts hts hnd]
      | false => simp [hE, hT, hS]

/-- C2 witness: the worked WIPRO scenario — entry fires at 09:15, target at
10:45, stop never, outcome target, `timeToTarget = 90` minutes. -/
theorem timeTo_metrics_witness :
    (backtestSignal envWipro wiproSignal).backtest = some wiproBacktest ∧
    (∃ te ∈ wiproSession, ∃ tt ∈ wiproSession,
      wiproBacktest.entryHitTime = some (to12Hour te.time) ∧
      wiproBacktest.targetHitTime = some (to12Hour tt.time) ∧
      wiproBacktest.timeToTarget = some (minutesOf tt.time - minutesOf te.time)) := by
  refine ⟨by decide, ?_⟩
  exact (timeTo_metrics envWipro wiproSignal wiproSession (some .dhan) wiproBacktest rfl rfl
    (by decide) (by decide) (by decide)).1 (by decide)

/-- C3 counterexample: at 15:45 of the signal's own day — strictly before the
16:00 data-availability cutoff — the guard allows the run, contradicting the
claim that every time before the cutoff is disallowed. -/
theorem timing_pre_cutoff_allowed_cex :
    945 < dataAvailableTime ∧ (checkBacktestTiming .eq 945).canBacktest = true := by
  decide

/-- C3 (amended): the guard allows any past date, rejects any future date,
and on the signal's own day rejects exactly the times strictly before market
close (15:30); from 15:30 on it allows the run (with a data-may-still-be-
processing caveat between 15:30 and 16:00). -/
theorem timing_guard_policy (cmp : Ordering) (now : Nat) :
    (cmp = .lt → (checkBacktestTiming cmp now).canBacktest = true) ∧
    (cmp = .gt → (checkBacktestTiming cmp now).canBacktest = false) ∧
    (cmp = .eq → ((checkBacktestTiming cmp now).canBacktest = true ↔ marketCloseTime ≤ now)) := by
  refine ⟨?_, ?_, ?_⟩ <;> rintro rfl
  · rfl
  · rfl
  · unfold checkBacktestTiming marketCloseTime dataAvailableTime
    split_ifs with h1 h2
    · simp
      omega
    · simp
      omega
    · simp
      omega

/-- C3 witness: a past date at 10:00 is allowed, a future date is rejected,
and today at 15:50 is allowed. -/
theorem timing_guard_policy_witness :
    (checkBacktestTiming .lt 600).canBacktest = true ∧
    (checkBacktestTiming .gt 600).canBacktest = false ∧
    (checkBacktestTiming .eq 950).canBacktest = true :=
  ⟨(timing_guard_policy .lt 600).1 rfl,
   (timing_guard_policy .gt 600).2.1 rfl,
   ((timing_guard_policy .eq 950).2.2 rfl).mpr (by decide)⟩

/-- C4 counterexample: in a one-signal batch the `onProgress` event (index 1
of the trace) precedes the persistence event (index 3), so the callback is
not invoked after the item's outcome is persisted. -/
theorem progress_before_persist_cex :
    ((backtestBatch envWipro [demoSignal]).map fun r => r.2.2) =
      .ok [.timingCheck "2025-11-11", .progress 1 1, .fetchCall "WIPRO", .persist "s1"] ∧
    ([Event.timingCheck "2025-11-11", .progress 1 1, .fetchCall "WIPRO",
      .persist "s1"][1]? = some (.progress 1 1)) ∧
    ([Event.timingCheck "2025-11-11", .progress 1 1, .fetchCall "WIPRO",
      .persist "s1"][3]? = some (.persist "s1")) ∧
    (1 : Nat) < 3 := by
  exact ⟨by rfl, by decide, by decide, by decide⟩

/-- C4 (amended): in every completed batch run with a callback, the trace is,
per item in input order, the `onProgress(i + 1, total)` call first, followed
by that item's work (fetch attempt, persistence, delay) — the callback comes
at the start of each iteration, not after persistence. -/
theorem progress_first_in_batch (env : Env) (sigs : List TSignal)
    (s0 : TSignal) (rest : List TSignal) (res : List TSignal) (cnt : Nat) (tr : List Event)
    (hsigs : sigs = s0 :: rest)
    (hok : backtestBatch env sigs = .ok (res, cnt, tr))
    (hp : env.hasProgress = true) :
    tr = .timingCheck s0.date ::
      ((List.enumFrom 0 sigs).map fun p =>
        Event.progress (p.1 + 1) sigs.length ::
          itemWork env sigs.length p.1 p.2 (calculateDhanDelay sigs.length)).flatten := by
  subst hsigs
  simp only [backtestBatch] at hok
  by_cases hcan : (checkBacktestTiming (env.dateVsToday s0.date) env.nowMinutes).canBacktest
  · rw [if_pos hcan] at hok
    simp only [Except.ok.injEq, Prod.mk.injEq] at hok
    obtain ⟨h1, h2, h3⟩ := hok
    rw [← h3]
    rw [runItems_trace]
    simp only [progressEvents, hp, if_true, List.singleton_append]
  · rw [if_neg hcan] at hok
    cases hok

/-- C4 witness: the one-signal run's trace is exactly the progress-first
per-item trace. -/
theorem progress_first_in_batch_witness :
    [Event.timingCheck "2025-11-11", .progress 1 1, .fetchCall "WIPRO", .persist "s1"] =
      .timingCheck "2025-11-11" ::
        ((List.enumFrom 0 [demoSignal]).map fun p =>
          Event.progress (p.1 + 1) [demoSignal].length ::
            itemWork envWipro [demoSignal].length p.1 p.2
              (calculateDhanDelay [demoSignal].length)).flatten := by
  exact progress_first_in_batch envWipro [demoSignal] demoSignal []
    [{ demoSignal with sector := some "UNKNOWN", backtest := some wiproBacktest }] 0
    [.timingCheck "2025-11-11", .progress 1 1, .fetchCall "WIPRO", .persist "s1"]
    rfl (by rfl) rfl

/-- C5 counterexample: a valid one-tick provider payload parses to a one-tick
session, so a parsed remote session does not contain 76 ticks. -/
theorem remote_session_not_full_cex :
    parseOHLCData (fun _ => "00:00") [rawDemoTick] =
      .ok [{ time := "09:15", price := 100, high := 101, low := 99 }] ∧
    [({ time := "09:15", price := 100, high := 101, low := 99 } : IntradayPoint)].length ≠ 76 := by
  exact ⟨by rfl, by decide⟩

/-- C5 (amended): every synthetic session from `generateMockIntradayData` —
for every seed stream and open price — has exactly the 76 five-minute
boundaries 09:15 through 15:30 in ascending order with no gaps, while
`parseOHLCData` merely keeps the payload's positive-price points (at most one
per raw tick) and guarantees no session coverage. -/
theorem session_coverage :
    (∀ (rnd : Nat → ℚ) (openPrice : ℚ),
      (generateMockIntradayData rnd openPrice).map Tick.time = standardSessionTimes) ∧
    standardSessionTimes.length = 76 ∧
    standardSessionTimes.head? = some ⟨9, 15⟩ ∧
    standardSessionTimes.getLast? = some ⟨15, 30⟩ ∧
    (∀ p ∈ standardSessionTimes.zip standardSessionTimes.tail,
      minutesOf p.2 = minutesOf p.1 + 5) ∧
    (∀ (f : Int → String) (raw : List RawTick) (pts : List IntradayPoint),
      parseOHLCData f raw = .ok pts →
      pts.length ≤ raw.length ∧ ∀ p ∈ pts, 0 < p.price) := by
  refine ⟨?_, by decide, by decide, by decide, by decide, parse_keeps_payload⟩
  intro rnd openPrice
  exact (mockLoop_map_time rnd 0 openPrice 9 15).trans timesFrom_eq_standard

/-- C5 witness: a concrete seed stream's mock session walks the standard
grid, and the one-tick payload's parse keeps its single positive point. -/
theorem session_coverage_witness :
    ((generateMockIntradayData (fun _ => mkRat 1 2) 100).map Tick.time = standardSessionTimes) ∧
    ([({ time := "09:15", price := 100, high := 101, low := 99 } : IntradayPoint)].length ≤
        [rawDemoTick].length ∧
      ∀ p ∈ [({ time := "09:15", price := 100, high := 101, low := 99 } : IntradayPoint)],
        0 < p.price) :=
  ⟨session_coverage.1 (fun _ => mkRat 1 2) 100,
   session_coverage.2.2.2.2.2 (fun _ => "00:00") [rawDemoTick]
     [{ time := "09:15", price := 100, high := 101, low := 99 }] (by rfl)⟩

/-- C6: every total data failure — unconfigured credentials, a thrown
provider error, or an empty payload — makes `backtestSignal` return the
signal with a fresh no-data record (noData true, all hit flags false) rather
than throw; `backtestBatch` processes every signal in order regardless,
tallies exactly the no-data results, and completes whenever the timing guard
passes. -/
theorem noData_isolated :
    (∀ (env : Env) (sig : TSignal), env.configured = false →
      backtestSignal env sig = { sig with backtest := some noDataBacktest }) ∧
    (∀ (env : Env) (sig : TSignal) (e : String), env.fetch sig.symbol sig.date = .error e →
      backtestSignal env sig = { sig with backtest := some noDataBacktest }) ∧
    (∀ (env : Env) (sig : TSignal) (src : Option DataSource),
      env.fetch sig.symbol sig.date = .ok ⟨[], src⟩ →
      backtestSignal env sig = { sig with backtest := some noDataBacktest }) ∧
    (noDataBacktest.noData = true ∧ noDataBacktest.entryHit = false ∧
      noDataBacktest.targetHit = false ∧ noDataBacktest.slHit = false ∧
      noDataBacktest.outcome = none) ∧
    (∀ (env : Env) (sigs res : List TSignal) (cnt : Nat) (tr : List Event),
      backtestBatch env sigs = .ok (res, cnt, tr) →
      res = sigs.map (fun s => backtestSignal env (withSector env s)) ∧
      cnt = res.countP noDataOf) ∧
    (∀ (env : Env) (s0 : TSignal) (rest : List TSignal),
      (checkBacktestTiming (env.dateVsToday s0.date) env.nowMinutes).canBacktest = true →
      ∃ r, backtestBatch env (s0 :: rest) = .ok r) := by
  refine ⟨?_, ?_, ?_, ⟨rfl, rfl, rfl, rfl, rfl⟩, ?_, ?_⟩
  · intro env sig h
    simp [backtestSignal, h]
  · intro env sig e h
    unfold backtestSignal
    cases hc : env.configured
    · simp
    · simp only [Bool.not_true, Bool.false_eq_true, if_false]
      rw [h]
  · intro env sig src h
    unfold backtestSignal
    cases hc : env.configured
    · simp
    · simp only [Bool.not_true, Bool.false_eq_true, if_false]
      rw [h]
      simp
  · intro env sigs res cnt tr hok
    cases sigs with
    | nil =>
      simp only [backtestBatch, Except.ok.injEq, Prod.mk.injEq] at hok
      obtain ⟨h1, h2, _⟩ := hok
      subst h1
      subst h2
      exact ⟨rfl, rfl⟩
    | cons s0 rest =>
      simp only [backtestBatch] at hok
      by_cases hcan : (checkBacktestTiming (env.dateVsToday s0.date) env.nowMinutes).canBacktest
      · rw [if_pos hcan] at hok
        simp only [Except.ok.injEq, Prod.mk.injEq] at hok
        obtain ⟨h1, h2, _⟩ := hok
        subst h1
        subst h2
        exact ⟨runItems_results env _ _ 0 _, runItems_count env _ _ 0 _⟩
      · rw [if_neg hcan] at hok
        cases hok
  · intro env s0 rest hcan
    simp only [backtestBatch]
    rw [if_pos hcan]
    exact ⟨_, rfl⟩

/-- C6 witness: the provider error for `"AAA"` yields the no-data record for
that signal, and the two-signal batch containing it still completes. -/
theorem noData_isolated_witness :
    backtestSignal envPartial (withSector envPartial sigA) =
      { withSector envPartial sigA with backtest := some noDataBacktest } ∧
    (∃ r, backtestBatch envPartial (sigA :: [sigB]) = .ok r) :=
  ⟨noData_isolated.2.1 envPartial (withSector envPartial sigA) "no data" (by rfl),
   noData_isolated.2.2.2.2.2 envPartial sigA [sigB] (by decide)⟩

/-- C7 counterexample: in a two-signal batch whose first item's remote call
was made (its fetch event is in the trace) but yielded no data, no delay
event occurs at all — the delay is skipped for that item even though it is
not the last one, contradicting the claim. -/
theorem failed_fetch_delay_skipped_cex :
    ((backtestBatch envPartial [sigA, sigB]).map fun r => r.2.2) =
      .ok [.timingCheck "2025-11-11", .progress 1 2, .fetchCall "AAA",
           .progress 2 2, .fetchCall "BBB"] ∧
    noDataOf (backtestSignal envPartial (withSector envPartial sigA)) = true ∧
    Event.delayEv 1000 ∉
      [Event.timingCheck "2025-11-11", .progress 1 2, .fetchCall "AAA",
       .progress 2 2, .fetchCall "BBB"] := by
  exact ⟨by rfl, by decide, by decide⟩

/-- C7 (amended): the inter-call delay is the fixed 1000 ms, and an item's
work awaits it exactly when the item is not the last of the batch and its
result is not a no-data outcome — so it is skipped for the final item and
for every no-data item, whether or not a remote call was made. -/
theorem delay_policy :
    (∀ n, calculateDhanDelay n = 1000) ∧
    (∀ (env : Env) (n i : Nat) (sig : TSignal) (d : Nat),
      Event.delayEv d ∈ itemWork env n i sig d ↔
        (i < n - 1 ∧ noDataOf (backtestSignal env (withSector env sig)) = false)) := by
  refine ⟨fun _ => rfl, ?_⟩
  intro env n i sig d
  unfold itemWork signalEvents persistEvents delayEvents
  cases hc : env.configured <;> cases hid : sig.id <;>
    by_cases hcond :
      (decide (i < n - 1) && !(noDataOf (backtestSignal env (withSector env sig)))) = true <;>
    simp only [hcond, if_true, if_false] <;>
    simp_all

/-- C8: the `seededRandom` and `hashString` copies in `backtest.ts` and
`mockCandleData.ts` are extensionally identical — the `seed++` post-increment
hands `Math.sin` the original seed, so both draws agree for every sine
function and every input. -/
theorem seeded_prng_copies_agree :
    (∀ (jsSin : ℚ → ℚ) (seed : ℚ),
      seededRandom_backtest jsSin seed = seededRandom_mock jsSin seed) ∧
    (∀ codeUnits : List Nat, hashString_backtest codeUnits = hashString_mock codeUnits) :=
  ⟨fun _ _ => rfl, fun _ => rfl⟩

/-- C9: `backtestSignal` agrees with its input signal on every field other
than `backtest` — on every data path it only attaches or replaces the
backtest record. -/
theorem backtestSignal_frame (env : Env) (sig : TSignal) :
    (backtestSignal env sig).id = sig.id ∧
    (backtestSignal env sig).date = sig.date ∧
    (backtestSignal env sig).symbol = sig.symbol ∧
    (backtestSignal env sig).strategy = sig.strategy ∧
    (backtestSignal env sig).side = sig.side ∧
    (backtestSignal env sig).score = sig.score ∧
    (backtestSignal env sig).entry = sig.entry ∧
    (backtestSignal env sig).target = sig.target ∧
    (backtestSignal env sig).stopLoss = sig.stopLoss ∧
    (backtestSignal env sig).riskReward = sig.riskReward ∧
    (backtestSignal env sig).sector = sig.sector ∧
    (backtestSignal env sig).details = sig.details := by
  unfold backtestSignal backtestCore
  repeat' split
  all_goals exact ⟨rfl, rfl, rfl, rfl, rfl, rfl, rfl, rfl, rfl, rfl, rfl, rfl⟩

/-- C10: `backtestBatch` throws exactly when the list is non-empty and the
timing guard rejects the first signal's date, and a throw happens right after
the guard consultation, before any per-item event; the empty batch returns
the empty result with an empty trace, never consulting the guard. -/
theorem batch_throw_policy (env : Env) :
    backtestBatch env [] = .ok ([], 0, []) ∧
    (∀ (s0 : TSignal) (rest : List TSignal),
      ((∃ err, backtestBatch env (s0 :: rest) = .error err) ↔
        (checkBacktestTiming (env.dateVsToday s0.date) env.nowMinutes).canBacktest = false) ∧
      (∀ msg evts, backtestBatch env (s0 :: rest) = .error (msg, evts) →
        msg = (checkBacktestTiming (env.dateVsToday s0.date) env.nowMinutes).message ∧
        evts = [.timingCheck s0.date])) := by
  refine ⟨rfl, ?_⟩
  intro s0 rest
  simp only [backtestBatch]
  by_cases hcan : (checkBacktestTiming (env.dateVsToday s0.date) env.nowMinutes).canBacktest
  · rw [if_pos hcan]
    refine ⟨⟨fun hex => ?_, fun hfalse => ?_⟩, fun msg evts herr => by cases herr⟩
    · obtain ⟨err, herr⟩ := hex
      cases herr
    · rw [hfalse] at hcan
      cases hcan
  · rw [if_neg hcan]
    refine ⟨⟨fun _ => ?_, fun _ => ⟨_, rfl⟩⟩, fun msg evts herr => ?_⟩
    · cases hb : (checkBacktestTiming (env.dateVsToday s0.date) env.nowMinutes).canBacktest
      · rfl
      · exact absurd hb hcan
    · simp only [Except.error.injEq, Prod.mk.injEq] at herr
      exact ⟨herr.1.symm, herr.2.symm⟩

/-- C10 witness: with today's clock at 10:00 the empty batch returns empty,
and a one-signal batch for today's date throws. -/
theorem batch_throw_policy_witness :
    backtestBatch envToday10 [] = .ok ([], 0, []) ∧
    (∃ err, backtestBatch envToday10 (demoSignal :: []) = .error err) :=
  ⟨(batch_throw_policy envToday10).1,
   ((batch_throw_policy envToday10).2 demoSignal []).1.mpr (by decide)⟩

end IntraQ
